import Mathlib

/-!
Verification development for `mikeio/dfsu.py` (class `Dfsu`): reading,
overwriting and creating dfsu mesh-time-series containers, and the mesh
geometry queries (node coordinates, element centroids, nearest element,
element area).

The shallow embedding below translates `dfsu.py` function by function.
Floating-point samples are idealised as `Fl` (an explicit not-a-number
marker or an exact rational); the external DHI storage provider is
modelled as plain data (`DfsuFileM`) with the cell semantics the spec
ascribes to it in §6 (sequential `WriteItemTimeStepNext` cells laid out
in nested (time, item) order, random-access 1-based reads).
-/

set_option autoImplicit false
set_option linter.unusedVariables false

deriving instance DecidableEq for Except

/-- A floating-point sample value: either the IEEE not-a-number marker or a
finite value, idealised as an exact rational. -/
inductive Fl where
  | nan : Fl
  | fin (q : ℚ) : Fl
deriving DecidableEq, Inhabited

/-- Failure modes. The first five are the Python exceptions the source can
actually raise (a .NET/provider exception surfaced from a failed provider
call is `ioError`; the bare `raise Exception` of `get_node_coords` on an
invalid filter code is `invalidCode`, the name the spec taxonomy gives that
failure). `createFailed` is the spec taxonomy's creation failure; it is
declared so that its absence from the code's behaviour can be stated. -/
inductive PyError where
  | ioError : PyError
  | nameError : PyError
  | indexError : PyError
  | valueError : PyError
  | invalidCode : PyError
  | itemNotFound : PyError
  | createFailed : PyError
deriving DecidableEq, Inhabited

/-- Modelled from the spec: the enumerated physical quantity type of
`ItemInfo` (eum.py, absent from src/); only the undefined default matters
for the claims. -/
inductive EumTypeM where
  | undefined : EumTypeM
  | other (n : Nat) : EumTypeM
deriving DecidableEq, Inhabited

/-- Modelled from the spec: the enumerated unit of `ItemInfo` (eum.py,
absent from src/); only the undefined default matters for the claims. -/
inductive EumUnitM where
  | undefined : EumUnitM
  | other (n : Nat) : EumUnitM
deriving DecidableEq, Inhabited

/-- Modelled from the spec: an item descriptor (eum.py `ItemInfo`, absent
from src/) — name, physical quantity type and unit, the latter two
defaulting to undefined (spec §3, §4.3). -/
structure ItemInfoM where
  name : String
  itemType : EumTypeM := EumTypeM.undefined
  unit : EumUnitM := EumUnitM.undefined
deriving DecidableEq, Inhabited

/-- Modelled from the spec: the `Dataset` of dutil.py (absent from src/) —
per-item data matrices indexed (time, element), the absolute time axis, and
the item descriptors (spec §3). Timestamps are seconds as rationals. -/
structure DatasetM where
  data : List (List (List Fl))
  time : List ℚ
  items : List ItemInfoM
deriving DecidableEq, Inhabited

/-- The dfsu file-type tags `read` distinguishes (`DfsuFileType` of the
external provider); 3D sigma variants carry a leading dynamic-Z item. -/
inductive DfsuFileTypeM where
  | dfsu2D : DfsuFileTypeM
  | dfsu3DSigma : DfsuFileTypeM
  | dfsu3DSigmaZ : DfsuFileTypeM
deriving DecidableEq, Inhabited

/-- The external storage provider's open container handle (`DfsuFile`),
modelled as plain data per spec §6: file metadata, node/element geometry,
item metadata, and the stored per-item-per-time-step sample arrays.
`cells` holds the arrays in the nested (time, item) order in which
sequential `WriteItemTimeStepNext` calls deposit them. -/
structure DfsuFileM where
  fileType : DfsuFileTypeM
  deleteValueFloat : ℚ
  nTimeSteps : Nat
  nElements : Nat
  startTimeSec : ℚ
  dt : ℚ
  itemInfos : List ItemInfoM
  projectionWKT : String
  nodeX : List ℚ
  nodeY : List ℚ
  nodeZ : List ℚ
  nodeCode : List ℤ
  elementTable : List (List Nat)
  cells : List (List Fl)
deriving DecidableEq, Inhabited

/-- `safe_length(dfs.ItemInfo)` (helpers.py, absent from src/; modelled from
the spec as the container's item count, dynamic-Z pseudo-item included). -/
def DfsuFileM.nItems (f : DfsuFileM) : Nat :=
  f.itemInfos.length

/-- Provider semantics of `dfs.ReadItemTimeStep(k, it)` (spec §6): the
1-based item `k` at time step `it` is the cell at flat position
`it * nItems + (k - 1)`; a missing cell is a provider failure. The
returned time is the step's elapsed seconds. -/
def DfsuFileM.readItemTimeStep (f : DfsuFileM) (k it : Nat) :
    Except PyError (ℚ × List Fl) :=
  match f.cells[it * f.nItems + (k - 1)]? with
  | some arr => Except.ok (f.dt * (it : ℚ), arr)
  | none => Except.error PyError.ioError

/-- `d[d == deleteValue] = np.nan` (dfsu.py line 89): every occurrence of
the delete value becomes not-a-number. An IEEE `nan` compares unequal to
everything, so `nan` entries are untouched, as in the source. -/
def maskDelete (dv : ℚ) (row : List Fl) : List Fl :=
  row.map (fun v => if v = Fl.fin dv then Fl.nan else v)

/-- `d[np.isnan(d)] = deletevalue` (dfsu.py lines 125 and 212): every
not-a-number entry becomes the delete value. -/
def maskNan (dv : ℚ) (row : List Fl) : List Fl :=
  row.map (fun v => match v with | Fl.nan => Fl.fin dv | x => x)

/-- Modelled from the spec: `get_item_info(dfs, item_numbers)` (dutil.py,
absent from src/) resolves the metadata of the selected items against the
container's item list (spec §4.2), one descriptor per selected number. -/
def get_item_info (f : DfsuFileM) (item_numbers : List Nat) : List ItemInfoM :=
  item_numbers.map (fun k => f.itemInfos.getD k default)

namespace Dfsu

/-- The inner item loop of one time step of `read` (dfsu.py lines 79-92):
for each selected item number `k`, fetch the raw array for 1-based item
`k + item_offset + 1` at step `it`, replace delete values by nan, and check
the row length against the element count (the numpy row assignment
`data_list[item][i, :] = d` fails on a length mismatch). Returns the rows
in item order together with the time of the last `itemdata` fetched. -/
def readStep (f : DfsuFileM) (offset : Nat) (it : Nat) :
    List Nat → Except PyError (List (List Fl) × Option ℚ)
  | [] => Except.ok ([], none)
  | k :: rest =>
    match f.readItemTimeStep (k + offset + 1) it with
    | Except.error e => Except.error e
    | Except.ok (t, src) =>
      let d := maskDelete f.deleteValueFloat src
      if d.length = f.nElements then
        match readStep f offset it rest with
        | Except.error e => Except.error e
        | Except.ok (rows, lastT) =>
          Except.ok (d :: rows, some (lastT.getD t))
      else Except.error PyError.valueError

/-- The outer time loop of `read` (dfsu.py lines 77-92): for each selected
step, run the item loop and record `itemdata.Time`. With an empty item
selection `itemdata` is never bound and the Python
`t_seconds[i] = itemdata.Time` raises a NameError. Returns the per-step
row lists (time-major) and the elapsed seconds per step. -/
def readLoop (f : DfsuFileM) (offset : Nat) (inums : List Nat) :
    List Nat → Except PyError (List (List (List Fl)) × List ℚ)
  | [] => Except.ok ([], [])
  | it :: rest =>
    match readStep f offset it inums with
    | Except.error e => Except.error e
    | Except.ok (rows, lastT) =>
      match lastT with
      | none => Except.error PyError.nameError
      | some t =>
        match readLoop f offset inums rest with
        | Except.error e => Except.error e
        | Except.ok (rs, ts) => Except.ok (rows :: rs, t :: ts)

/-- Reassembles the time-major rows produced by the loops into the
item-major `data_list` matrices the Python code fills by assignment
(`data_list[item][i, :] = d`). -/
def transposeRows (nI : Nat) (rows : List (List (List Fl))) :
    List (List (List Fl)) :=
  (List.range nI).map (fun item => rows.map (fun r => r.getD item []))

/-- Outcome of `Dfsu.read`: the returned Dataset or the raised error, and
whether `dfs.Close()` ran before control returned. -/
structure ReadOut where
  result : Except PyError DatasetM
  closed : Bool
deriving DecidableEq, Inhabited

/-- `Dfsu.read` (dfsu.py lines 15-100). The handle `f` is the container
just opened by `DfsuFile.Open`. 3D sigma variants shift user item numbers
by one past the dynamic-Z pseudo-item and hide it from the default
selection. Name-based selection (resolved through dutil's `find_item`
before this point) is not modelled. `dfs.Close()` (line 99) runs only
after both loops succeed; a provider failure propagates past it. -/
def read (f : DfsuFileM) (item_numbers : Option (List Nat))
    (time_steps : Option (List Nat)) : ReadOut :=
  let offset : Nat :=
    if f.fileType = DfsuFileTypeM.dfsu3DSigma ∨
        f.fileType = DfsuFileTypeM.dfsu3DSigmaZ then 1 else 0
  let nAvail : Nat := f.nItems - offset
  let inums : List Nat := item_numbers.getD (List.range nAvail)
  let tsteps : List Nat := time_steps.getD (List.range f.nTimeSteps)
  match readLoop f offset inums tsteps with
  | Except.error e => { result := Except.error e, closed := false }
  | Except.ok (rows, tsecs) =>
    { result := Except.ok
        { data := transposeRows inums.length rows
          time := tsecs.map (fun s => f.startTimeSec + s)
          items := get_item_info f inums }
      closed := true }

/-- The inner item loop of one time step of `write`/`create` (dfsu.py
lines 123-127 and 210-214): fetch the caller's row `data[item][i, :]`
(a missing array or row is a Python IndexError), overwrite its nan entries
with the delete value — this mutates the caller's array in place, since the
numpy slice is a view — and append the row to the file's cell sequence
(`WriteItemTimeStepNext`). Threads the mutated data and the cells. -/
def writeItemsAt (dv : ℚ) (i : Nat) :
    List Nat → List (List (List Fl)) → List (List Fl) →
    Except PyError (List (List (List Fl)) × List (List Fl))
  | [], data, cells => Except.ok (data, cells)
  | item :: rest, data, cells =>
    match data.get? item with
    | none => Except.error PyError.indexError
    | some arr =>
      match arr.get? i with
      | none => Except.error PyError.indexError
      | some row =>
        let d := maskNan dv row
        writeItemsAt dv i rest (data.set item (arr.set i d)) (cells ++ [d])

/-- The outer time loop of `write`/`create` (dfsu.py lines 122 and 209):
strict nested (time, item) order. -/
def writeLoop (dv : ℚ) (items : List Nat) :
    List Nat → List (List (List Fl)) → List (List Fl) →
    Except PyError (List (List (List Fl)) × List (List Fl))
  | [], data, cells => Except.ok (data, cells)
  | i :: rest, data, cells =>
    match writeItemsAt dv i items data cells with
    | Except.error e => Except.error e
    | Except.ok (data2, cells2) => writeLoop dv items rest data2 cells2

/-- Outcome of `Dfsu.write`: the raised error if any, the caller's data
arrays as the operation leaves them (in-place nan masking), the container
with the freshly written cells, and whether `dfs.Close()` ran. -/
structure WriteOut where
  result : Except PyError Unit
  dataAfter : List (List (List Fl))
  file : DfsuFileM
  closed : Bool
deriving DecidableEq, Inhabited

/-- `Dfsu.write` (dfsu.py lines 102-129). The handle `f` is the existing
container opened for edit by `DfsGenericOpenEdit`; the edit cursor starts
at the first cell, so the written sequence replaces the stored cells. Item
and time-step counts come from the file, not from `data`. `dfs.Close()`
(line 129) runs only on the successful path. -/
def write (f : DfsuFileM) (data : List (List (List Fl))) : WriteOut :=
  match writeLoop f.deleteValueFloat (List.range f.nItems)
      (List.range f.nTimeSteps) data [] with
  | Except.error e =>
    { result := Except.error e, dataAfter := data, file := f, closed := false }
  | Except.ok (data2, cells2) =>
    { result := Except.ok ()
      dataAfter := data2
      file := { f with cells := cells2 }
      closed := true }

end Dfsu

/-- The geometry provider's mesh definition (spec §6 `read_mesh`):
node coordinate arrays, node codes, 1-based element table, projection
string. -/
structure MeshM where
  x : List ℚ
  y : List ℚ
  z : List ℚ
  code : List ℤ
  elementTable : List (List Nat)
  projectionString : String
deriving DecidableEq, Inhabited

/-- The provider's delete value for a freshly created dfsu file (the
builder chooses it; the source never sets it explicitly). -/
def defaultDeleteValueFloat : ℚ := 1 / 10 ^ 35

namespace Dfsu

/-- Outcome of `Dfsu.create`: the raised error if any, the dynamic items
declared through `AddDynamicItem`, the created container (absent when
`CreateFile` failed), the caller's data arrays as the operation leaves
them, the messages printed, and whether `dfs.Close()` ran. -/
structure CreateOut where
  result : Except PyError Unit
  declaredItems : List ItemInfoM
  file : Option DfsuFileM
  dataAfter : List (List (List Fl))
  printed : List String
  closed : Bool
deriving DecidableEq, Inhabited

/-- `Dfsu.create` (dfsu.py lines 131-216). `canCreate` models whether
`builder.CreateFile(filename)` succeeds; when it raises an IOError the
source catches it, prints a message and falls through, whereupon the
unbound local `dfs` raises a NameError at `dfs.DeleteValueFloat`
(line 206). `np.shape(data[0])` on an empty data list is an IndexError
before anything else happens. The builder unconditionally targets
`DfsuFileType.Dfsu2D` (line 182); no geometry check exists. Default item
descriptors are named `"temItem 1"`, `"temItem 2"`, … (line 172). The
write loop is the same nested (time, item) loop as `write`, with the time
count taken from `data[0]`. -/
def create (mesh : MeshM) (canCreate : Bool) (data : List (List (List Fl)))
    (startTimeSec : ℚ) (dt : ℚ) (items : Option (List ItemInfoM))
    (title : Option String) : CreateOut :=
  match data.head? with
  | none =>
    { result := Except.error PyError.indexError, declaredItems := []
      file := none, dataAfter := data, printed := [], closed := false }
  | some arr0 =>
    let n_items := data.length
    let n_time_steps := arr0.length
    let its := items.getD ((List.range n_items).map
      (fun i => { name := "temItem " ++ toString (i + 1) }))
    if canCreate then
      let f0 : DfsuFileM :=
        { fileType := DfsuFileTypeM.dfsu2D
          deleteValueFloat := defaultDeleteValueFloat
          nTimeSteps := n_time_steps
          nElements := (mesh.elementTable.length)
          startTimeSec := startTimeSec
          dt := dt
          itemInfos := its
          projectionWKT := mesh.projectionString
          nodeX := mesh.x, nodeY := mesh.y, nodeZ := mesh.z
          nodeCode := mesh.code
          elementTable := mesh.elementTable
          cells := [] }
      match writeLoop f0.deleteValueFloat (List.range n_items)
          (List.range n_time_steps) data [] with
      | Except.error e =>
        { result := Except.error e, declaredItems := its
          file := some f0, dataAfter := data, printed := [], closed := false }
      | Except.ok (data2, cells2) =>
        { result := Except.ok (), declaredItems := its
          file := some { f0 with cells := cells2 }
          dataAfter := data2, printed := [], closed := true }
    else
      { result := Except.error PyError.nameError
        declaredItems := its
        file := none
        dataAfter := data
        printed := ["cannot create dfsu file: "]
        closed := false }

/-- `column_stack([xn, yn, zn])` of `get_node_coords` (dfsu.py line 238):
the node coordinate triples in node order. -/
def nodeTriples (f : DfsuFileM) : List (ℚ × ℚ × ℚ) :=
  (f.nodeX.zip (f.nodeY.zip f.nodeZ)).map (fun p => (p.1, p.2.1, p.2.2))

/-- `Dfsu.get_node_coords` (dfsu.py lines 218-251): all node triples, or —
given a filter code — the subsequence with that node code, after a
membership check against the set of codes; an absent code raises (the bare
`raise Exception` of line 248, named `invalidCode` by the spec taxonomy). -/
def get_node_coords (f : DfsuFileM) (code : Option ℤ) :
    Except PyError (List (ℚ × ℚ × ℚ)) :=
  let nc := nodeTriples f
  match code with
  | none => Except.ok nc
  | some c =>
    if c ∈ f.nodeCode then
      Except.ok (((f.nodeCode.zip nc).filter (fun p => p.1 == c)).map
        (fun p => p.2))
    else Except.error PyError.invalidCode

/-- `Dfsu.get_element_coords` (dfsu.py lines 253-286): for each of the
file's elements, the unweighted mean of its nodes' coordinates, node
indices being 1-based in the element table. -/
def get_element_coords (f : DfsuFileM) : List (ℚ × ℚ × ℚ) :=
  (List.range f.nElements).map (fun j =>
    let nodes := f.elementTable.getD j []
    let xs := nodes.map (fun nidx => f.nodeX.getD (nidx - 1) 0)
    let ys := nodes.map (fun nidx => f.nodeY.getD (nidx - 1) 0)
    let zs := nodes.map (fun nidx => f.nodeZ.getD (nidx - 1) 0)
    (xs.sum / (nodes.length : ℚ), ys.sum / (nodes.length : ℚ),
      zs.sum / (nodes.length : ℚ)))

/-- The squared distances `d` of `find_closest_element_index` (dfsu.py
lines 304-312): to (x, y) over the first two centroid components when `z`
is omitted, to (x, y, z) over all three when supplied. -/
def closestDistances (f : DfsuFileM) (x y : ℚ) (z : Option ℚ) : List ℚ :=
  (get_element_coords f).map (fun ec =>
    match z with
    | none => (ec.1 - x) ^ 2 + (ec.2.1 - y) ^ 2
    | some zv => (ec.1 - x) ^ 2 + (ec.2.1 - y) ^ 2 + (ec.2.2 - zv) ^ 2)

/-- One insertion step of a stable ascending argsort: a new index `j`
(larger than every index already placed) moves past entries whose key is
`≤` its own, so equal keys keep their original order. -/
def insertIdxBy (d : List ℚ) (j : Nat) : List Nat → List Nat
  | [] => [j]
  | k :: ks =>
    if d.getD k 0 ≤ d.getD j 0 then k :: insertIdxBy d j ks else j :: k :: ks

/-- `d.argsort()` (dfsu.py lines 308 and 313), modelled as a stable
ascending argsort by insertion. Caveat: numpy's default sort
(kind=quicksort) is documented stable only in its small-array
insertion-sort regime (roughly sixteen elements or fewer) and unstable
above it, so for larger inputs this definition fixes a tie order among
equal keys that the source leaves unspecified; no theorem in this file
relies on that choice. -/
def argsortQ (d : List ℚ) : List Nat :=
  (List.range d.length).foldl (fun acc j => insertIdxBy d j acc) []

/-- `Dfsu.find_closest_element_index` (dfsu.py lines 288-315): the first
entry of the ascending argsort of the squared centroid distances. (On a
mesh with no elements the Python `d.argsort()[0]` raises; the default 0 of
`headD` is only a total-function placeholder.) -/
def find_closest_element_index (f : DfsuFileM) (x y : ℚ) (z : Option ℚ) :
    Nat :=
  (argsortQ (closestDistances f x y z)).headD 0

/-- `Dfsu.is_geo` (dfsu.py lines 320-328): exact match of the projection
string. -/
def is_geo (f : DfsuFileM) : Bool :=
  f.projectionWKT = "LONG/LAT"

/-- The loop body of `Dfsu.get_element_area` (dfsu.py lines 347-391) for
element `j`: edge vectors ab, ac (and ad for a quadrilateral) from the
first node, scaled to metres when the mesh is geographic
(`R·(π/180)`, x-components additionally by the cosine of the mean node
latitude), then the signed area ½(abx·acy − aby·acx), plus
½(acx·ady − acy·adx) for a quadrilateral. -/
noncomputable def elemSignedArea (f : DfsuFileM) (j : Nat) : ℝ :=
  let nodes := f.elementTable.getD j []
  let xc : Nat → ℝ := fun i => ((f.nodeX.getD (nodes.getD i 0 - 1) 0 : ℚ) : ℝ)
  let yc : Nat → ℝ := fun i => ((f.nodeY.getD (nodes.getD i 0 - 1) 0 : ℚ) : ℝ)
  let abx := xc 1 - xc 0
  let aby := yc 1 - yc 0
  let acx := xc 2 - xc 0
  let acy := yc 2 - yc 0
  let adx := xc 3 - xc 0
  let ady := yc 3 - yc 0
  let isquad : Bool := decide (3 < nodes.length)
  let earth_radius_deg_to_rad : ℝ := 6366707.0 * (Real.pi / 180)
  let Ye : ℝ :=
    (((nodes.map (fun nidx => f.nodeY.getD (nidx - 1) 0)).sum : ℚ) : ℝ) /
      (nodes.length : ℝ)
  let cosYe : ℝ := Real.cos (Ye * Real.pi / 180)
  let abx2 := if is_geo f then earth_radius_deg_to_rad * abx * cosYe else abx
  let aby2 := if is_geo f then earth_radius_deg_to_rad * aby else aby
  let acx2 := if is_geo f then earth_radius_deg_to_rad * acx * cosYe else acx
  let acy2 := if is_geo f then earth_radius_deg_to_rad * acy else acy
  let adx2 := if is_geo f then earth_radius_deg_to_rad * adx * cosYe else adx
  let ady2 := if is_geo f then earth_radius_deg_to_rad * ady else ady
  let a0 := 0.5 * (abx2 * acy2 - aby2 * acx2)
  if isquad then a0 + 0.5 * (acx2 * ady2 - acy2 * adx2) else a0

/-- `Dfsu.get_element_area` (dfsu.py lines 330-393): one value per
element, the absolute value (`np.abs`, line 393) of the signed area. -/
noncomputable def get_element_area (f : DfsuFileM) : List ℝ :=
  (List.range f.nElements).map (fun j => |elemSignedArea f j|)

end Dfsu

/-! ### Specification-side helpers and concrete fixtures -/

/-- The row of `data[item]` at time index `i`, when both exist: the
pointwise view of the nested data matrices used throughout the proofs. -/
def rowAt (data : List (List (List Fl))) (item i : Nat) : Option (List Fl) :=
  data[item]?.bind (fun arr => arr[i]?)

/-- A small 2D container fixture: one item, two time steps, two triangular
elements on a unit square of four nodes. -/
def exFile : DfsuFileM :=
  { fileType := DfsuFileTypeM.dfsu2D
    deleteValueFloat := -99
    nTimeSteps := 2
    nElements := 2
    startTimeSec := 0
    dt := 1
    itemInfos := [{ name := "Surface" }]
    projectionWKT := "UTM-33"
    nodeX := [0, 1, 1, 0]
    nodeY := [0, 0, 1, 1]
    nodeZ := [0, 0, 0, 0]
    nodeCode := [1, 1, 0, 1]
    elementTable := [[1, 2, 3], [1, 3, 4]]
    cells := [] }

/-- Data for `exFile`: one item, two time steps, two elements, with
not-a-number at positions (0,0,0) and (0,1,1). -/
def exData : List (List (List Fl)) :=
  [[[Fl.nan, Fl.fin 5], [Fl.fin 7, Fl.nan]]]

/-- Like `exData` but holding the delete value of `exFile` (-99) as a
finite sample at position (0,0,0). -/
def exDataDel : List (List (List Fl)) :=
  [[[Fl.fin (-99), Fl.fin 5], [Fl.fin 7, Fl.nan]]]

/-- A corrupt container: it advertises one time step but stores no cells,
so the provider read fails mid-operation. -/
def exBadFile : DfsuFileM :=
  { exFile with nTimeSteps := 1 }

/-- A well-stocked variant of `exFile`: cells for one item and two time
steps, with one stored delete value at position (1,1). -/
def exFilled : DfsuFileM :=
  { exFile with cells := [[Fl.fin 1, Fl.fin 2], [Fl.fin 3, Fl.fin (-99)]] }

/-- The Dataset that `read` returns on `exFilled`: the stored delete value
at position (1,1) comes back as not-a-number; the time axis is start time
plus step times. -/
def exDs : DatasetM :=
  { data := [[[Fl.fin 1, Fl.fin 2], [Fl.fin 3, Fl.nan]]]
    time := [exFilled.startTimeSec + exFilled.dt * ((0 : Nat) : ℚ),
      exFilled.startTimeSec + exFilled.dt * ((1 : Nat) : ℚ)]
    items := [{ name := "Surface" }] }

/-- A mesh fixture: one quadrilateral element on the unit square. -/
def exMesh : MeshM :=
  { x := [0, 1, 1, 0]
    y := [0, 0, 1, 1]
    z := [0, 0, 0, 0]
    code := [1, 1, 0, 1]
    elementTable := [[1, 2, 3, 4]]
    projectionString := "UTM-33" }

/-- A planar container holding the single unit-square quadrilateral of
`exMesh`. -/
def exQuadFile : DfsuFileM :=
  { exFile with nElements := 1, elementTable := [[1, 2, 3, 4]] }

/-- A 3D-sigma variant of the fixture: two stored items of which the first
is the dynamic-Z pseudo-item, one time step, one element. -/
def ex3DFile : DfsuFileM :=
  { exFile with
    fileType := DfsuFileTypeM.dfsu3DSigma
    itemInfos := [{ name := "Z" }, { name := "Surface" }]
    nTimeSteps := 1
    nElements := 1 }

/-- Data for `ex3DFile`: a finite sample for the dynamic-Z item and
not-a-number for the user item. -/
def exData3 : List (List (List Fl)) :=
  [[[Fl.fin 2]], [[Fl.nan]]]

/-- A 2D container with no items but one time step: `read` on it raises
the NameError of the unbound `itemdata` (dfsu.py line 92). -/
def exZeroFile : DfsuFileM :=
  { exFile with itemInfos := [], nTimeSteps := 1 }

/-! ### Basic lemmas about the masking functions -/

lemma maskNan_length (dv : ℚ) (row : List Fl) :
    (maskNan dv row).length = row.length := by
  simp [maskNan]

lemma maskDelete_length (dv : ℚ) (row : List Fl) :
    (maskDelete dv row).length = row.length := by
  simp [maskDelete]

/-- Un-masking after masking recovers the original row, provided the row
nowhere holds the delete value as a finite sample. -/
lemma maskDelete_maskNan (dv : ℚ) (row : List Fl) (h : Fl.fin dv ∉ row) :
    maskDelete dv (maskNan dv row) = row := by
  induction row with
  | nil => rfl
  | cons v rest ih =>
    simp only [List.mem_cons, not_or] at h
    have ih2 := ih h.2
    rw [maskNan, List.map_cons, maskDelete, List.map_cons]
    rw [maskNan, maskDelete] at ih2
    refine congrArg₂ List.cons ?_ ih2
    cases v with
    | nan => simp
    | fin q =>
      have hq : ¬ (Fl.fin q = Fl.fin dv) := fun hc => h.1 hc.symm
      simp [hq]

/-! ### Pointwise view of the nested data matrices -/

lemma rowAt_set (data : List (List (List Fl))) (item : Nat)
    (arr : List (List Fl)) (hget : data[item]? = some arr)
    (i : Nat) (hi : i < arr.length) (d : List Fl) (item' i' : Nat) :
    rowAt (data.set item (arr.set i d)) item' i' =
      if item' = item ∧ i' = i then some d else rowAt data item' i' := by
  have hlt : item < data.length := by
    by_contra hc
    rw [List.getElem?_eq_none (Nat.le_of_not_lt hc)] at hget
    exact Option.noConfusion hget
  by_cases hitem : item' = item
  · subst hitem
    rw [rowAt, List.getElem?_set_eq hlt]
    by_cases hi' : i' = i
    · subst hi'
      simp [List.getElem?_set_eq hi]
    · rw [Option.some_bind, List.getElem?_set_ne (fun hc => hi' hc.symm)]
      simp [rowAt, hget, hi']
  · rw [rowAt, List.getElem?_set_ne (fun hc => hitem hc.symm)]
    simp [rowAt, hitem]

/-! ### Characterisation of the write loops -/

/-- On a step where every selected item exists and has a row `i`, the inner
write loop succeeds; it appends the nan-masked rows (of the data as it stood
on entry) to the cell sequence in item order, and masks exactly row `i` of
each selected item in place. -/
lemma writeItemsAt_ok (dv : ℚ) (i : Nat) :
    ∀ (items : List Nat) (data : List (List (List Fl))) (cells : List (List Fl)),
    items.Nodup →
    (∀ item ∈ items, ∃ row, rowAt data item i = some row) →
    ∃ data2,
      Dfsu.writeItemsAt dv i items data cells =
        Except.ok (data2, cells ++ items.map (fun item =>
          maskNan dv ((rowAt data item i).getD []))) ∧
      (∀ item' i', rowAt data2 item' i' =
        if item' ∈ items ∧ i' = i then (rowAt data item' i').map (maskNan dv)
        else rowAt data item' i')
  | [], data, cells, _, _ => by
    refine ⟨data, by simp [Dfsu.writeItemsAt], ?_⟩
    intro item' i'
    simp
  | item :: rest, data, cells, hnd, h => by
    obtain ⟨row, hrow⟩ := h item (List.mem_cons_self item rest)
    obtain ⟨arr, harr, hrow2⟩ :
        ∃ arr, data[item]? = some arr ∧ arr[i]? = some row := by
      rw [rowAt] at hrow
      cases hgetd : data[item]? with
      | none => rw [hgetd] at hrow; simp at hrow
      | some arr => rw [hgetd] at hrow; exact ⟨arr, rfl, hrow⟩
    have hi : i < arr.length := by
      by_contra hc
      rw [List.getElem?_eq_none (Nat.le_of_not_lt hc)] at hrow2
      exact Option.noConfusion hrow2
    have hndrest : rest.Nodup := (List.nodup_cons.mp hnd).2
    have hnotmem : item ∉ rest := (List.nodup_cons.mp hnd).1
    have hrowAt1 : ∀ item' i',
        rowAt (data.set item (arr.set i (maskNan dv row))) item' i' =
          if item' = item ∧ i' = i then some (maskNan dv row)
          else rowAt data item' i' :=
      rowAt_set data item arr harr i hi (maskNan dv row)
    have hrest : ∀ it ∈ rest,
        ∃ r, rowAt (data.set item (arr.set i (maskNan dv row))) it i = some r := by
      intro it hit
      obtain ⟨r, hr⟩ := h it (List.mem_cons_of_mem _ hit)
      refine ⟨r, ?_⟩
      rw [hrowAt1]
      have hne : ¬ (it = item ∧ i = i) := by
        rintro ⟨hc, -⟩; exact hnotmem (hc ▸ hit)
      rw [if_neg hne]; exact hr
    obtain ⟨data2, heq, hchar⟩ :=
      writeItemsAt_ok dv i rest (data.set item (arr.set i (maskNan dv row)))
        (cells ++ [maskNan dv row]) hndrest hrest
    refine ⟨data2, ?_, ?_⟩
    · have hget? : (data.get? item) = some arr := by
        rw [List.get?_eq_getElem?]; exact harr
      have hgetrow : (arr.get? i) = some row := by
        rw [List.get?_eq_getElem?]; exact hrow2
      rw [Dfsu.writeItemsAt, hget?]
      simp only [hgetrow]
      rw [heq]
      congr 1
      congr 1
      rw [List.append_assoc]
      congr 1
      rw [List.map_cons, List.singleton_append]
      congr 1
      · rw [hrow]; rfl
      · apply List.map_congr_left
        intro it hit
        have hne : ¬ (it = item ∧ i = i) := by
          rintro ⟨hc, -⟩; exact hnotmem (hc ▸ hit)
        rw [hrowAt1, if_neg hne]
    · intro item' i'
      rw [hchar item' i', hrowAt1 item' i']
      by_cases hIi : i' = i
      · subst hIi
        by_cases hB : item' = item
        · subst hB
          have hA : ¬ (item' ∈ rest ∧ i' = i') := fun hc => hnotmem hc.1
          rw [if_neg hA, if_pos ⟨rfl, rfl⟩,
            if_pos ⟨List.mem_cons_self item' rest, rfl⟩, hrow]
          rfl
        · have hBne : ¬ (item' = item ∧ i' = i') := fun hc => hB hc.1
          rw [if_neg hBne]
          by_cases hR : item' ∈ rest
          · rw [if_pos ⟨hR, rfl⟩, if_pos ⟨List.mem_cons_of_mem _ hR, rfl⟩]
          · rw [if_neg (fun hc => hR hc.1)]
            have : ¬ (item' ∈ item :: rest ∧ i' = i') := by
              rintro ⟨hmem2, -⟩
              rcases List.mem_cons.mp hmem2 with hc | hc
              · exact hB hc
              · exact hR hc
            rw [if_neg this]
      · rw [if_neg (fun hc => hIi hc.2), if_neg (fun hc => hIi hc.2),
          if_neg (fun hc => hIi hc.2)]

/-- Over distinct time steps and distinct items whose rows all exist, the
nested write loop succeeds, appends the nan-masked rows of the original
data in nested (time, item) order, and masks exactly the touched rows in
place. -/
lemma writeLoop_ok (dv : ℚ) (items : List Nat) (hndI : items.Nodup) :
    ∀ (times : List Nat) (data : List (List (List Fl))) (cells : List (List Fl)),
    times.Nodup →
    (∀ item ∈ items, ∀ i ∈ times, ∃ row, rowAt data item i = some row) →
    ∃ data2,
      Dfsu.writeLoop dv items times data cells =
        Except.ok (data2, cells ++ times.flatMap (fun i => items.map (fun item =>
          maskNan dv ((rowAt data item i).getD [])))) ∧
      (∀ item' i', rowAt data2 item' i' =
        if item' ∈ items ∧ i' ∈ times then (rowAt data item' i').map (maskNan dv)
        else rowAt data item' i')
  | [], data, cells, _, _ => by
    refine ⟨data, by simp [Dfsu.writeLoop], ?_⟩
    intro item' i'
    simp
  | i :: rest, data, cells, hndT, h => by
    have hstep : ∀ item ∈ items, ∃ row, rowAt data item i = some row :=
      fun item hm => h item hm i (List.mem_cons_self i rest)
    obtain ⟨data1, heq1, hchar1⟩ := writeItemsAt_ok dv i items data cells hndI hstep
    have hndrest : rest.Nodup := (List.nodup_cons.mp hndT).2
    have hnotmem : i ∉ rest := (List.nodup_cons.mp hndT).1
    have hrest : ∀ item ∈ items, ∀ i2 ∈ rest, ∃ row, rowAt data1 item i2 = some row := by
      intro item hm i2 hi2
      obtain ⟨row, hrow⟩ := h item hm i2 (List.mem_cons_of_mem _ hi2)
      refine ⟨row, ?_⟩
      rw [hchar1]
      have hne : ¬ (item ∈ items ∧ i2 = i) := by
        rintro ⟨-, hc⟩; exact hnotmem (hc ▸ hi2)
      rw [if_neg hne]; exact hrow
    obtain ⟨data2, heq2, hchar2⟩ :=
      writeLoop_ok dv items hndI rest data1
        (cells ++ items.map (fun item => maskNan dv ((rowAt data item i).getD [])))
        hndrest hrest
    refine ⟨data2, ?_, ?_⟩
    · have hred : Dfsu.writeLoop dv items (i :: rest) data cells =
          Dfsu.writeLoop dv items rest data1
            (cells ++ items.map (fun item =>
              maskNan dv ((rowAt data item i).getD []))) := by
        rw [Dfsu.writeLoop, heq1]
      rw [hred, heq2]
      congr 1
      congr 1
      rw [List.flatMap_cons, ← List.append_assoc]
      congr 1
      apply List.flatMap_congr
      intro i2 hi2
      apply List.map_congr_left
      intro item hm
      have hne : ¬ (item ∈ items ∧ i2 = i) := by
        rintro ⟨-, hc⟩; exact hnotmem (hc ▸ hi2)
      rw [hchar1, if_neg hne]
    · intro item' i'
      rw [hchar2 item' i', hchar1 item' i']
      by_cases hI : item' ∈ items
      · by_cases hE : i' = i
        · subst hE
          have hR : i' ∉ rest := hnotmem
          rw [if_neg (fun hc => hR hc.2), if_pos ⟨hI, rfl⟩,
            if_pos ⟨hI, List.mem_cons_self i' rest⟩]
        · by_cases hR : i' ∈ rest
          · rw [if_pos ⟨hI, hR⟩, if_neg (fun hc => hE hc.2),
              if_pos ⟨hI, List.mem_cons_of_mem _ hR⟩]
          · rw [if_neg (fun hc => hR hc.2), if_neg (fun hc => hE hc.2)]
            have : ¬ (item' ∈ items ∧ i' ∈ i :: rest) := by
              rintro ⟨-, hmem⟩
              rcases List.mem_cons.mp hmem with hc | hc
              · exact hE hc
              · exact hR hc
            rw [if_neg this]
      · rw [if_neg (fun hc => hI hc.1), if_neg (fun hc => hI hc.1),
          if_neg (fun hc => hI hc.1)]

/-! ### Indexing lemmas for the flat cell sequence -/

/-- Indexing into the concatenation of equally long chunks. -/
lemma getElem?_flatten_uniform {α : Type} (n : Nat) :
    ∀ (chunks : List (List α)) (i j : Nat), (∀ c ∈ chunks, c.length = n) →
    i < chunks.length → j < n →
    chunks.flatten[i * n + j]? = (chunks.getD i [])[j]?
  | [], i, j, _, hi, _ => absurd hi (by simp)
  | c :: cs, 0, j, hlen, _, hj => by
    have hc : c.length = n := hlen c (List.mem_cons_self c cs)
    rw [List.flatten_cons, Nat.zero_mul, Nat.zero_add,
      List.getElem?_append_left (by rw [hc]; exact hj)]
    rfl
  | c :: cs, i + 1, j, hlen, hi, hj => by
    have hc : c.length = n := hlen c (List.mem_cons_self c cs)
    have hix : (i + 1) * n + j = c.length + (i * n + j) := by
      rw [hc]; ring
    rw [List.flatten_cons, hix,
      List.getElem?_append_right (Nat.le_add_right _ _),
      Nat.add_sub_cancel_left]
    exact getElem?_flatten_uniform n cs i j
      (fun c2 hm => hlen c2 (List.mem_cons_of_mem _ hm))
      (Nat.lt_of_succ_lt_succ hi) hj

/-- Reading a list back entry by entry over the range of its length. -/
lemma map_getD_range {α : Type} (d : α) :
    ∀ (l : List α), (List.range l.length).map (fun i => l.getD i d) = l
  | [] => rfl
  | a :: rest => by
    rw [List.length_cons, List.range_succ_eq_map, List.map_cons, List.map_map]
    congr 1
    have hco : ((fun i => (a :: rest).getD i d) ∘ Nat.succ) =
        fun i => rest.getD i d := by
      funext i; rfl
    rw [hco]
    exact map_getD_range d rest

/-! ### Closed forms of the read loops on a well-stocked container -/

/-- On a container whose cells back every selected item at step `it` with a
row of the right length, one read step returns the delete-masked rows in
item order and, when at least one item was read, the step's elapsed
time. -/
lemma readStep_ok (f : DfsuFileM) (offset it : Nat) :
    ∀ (inums : List Nat),
    (∀ k ∈ inums, ∃ arr, f.cells[it * f.nItems + (k + offset)]? = some arr ∧
      (maskDelete f.deleteValueFloat arr).length = f.nElements) →
    Dfsu.readStep f offset it inums =
      Except.ok (inums.map (fun k =>
          maskDelete f.deleteValueFloat
            ((f.cells[it * f.nItems + (k + offset)]?).getD [])),
        if inums = [] then none else some (f.dt * (it : ℚ)))
  | [], _ => by simp [Dfsu.readStep]
  | k :: rest, h => by
    obtain ⟨arr, harr, hlen⟩ := h k (List.mem_cons_self k rest)
    have hrest := readStep_ok f offset it rest
      (fun k2 hm => h k2 (List.mem_cons_of_mem _ hm))
    have hidx : k + offset + 1 - 1 = k + offset := by omega
    rw [Dfsu.readStep, DfsuFileM.readItemTimeStep, hidx, harr]
    simp only [if_pos hlen, hrest, harr]
    by_cases hr : rest = []
    · subst hr
      simp [harr]
    · simp [hr, harr]

/-- On a container whose cells back every selected item at every selected
step, the full read loop returns the delete-masked rows, time-major, and
one elapsed time per step. -/
lemma readLoop_ok (f : DfsuFileM) (offset : Nat) (inums : List Nat)
    (hne : inums ≠ []) :
    ∀ (tsteps : List Nat),
    (∀ it ∈ tsteps, ∀ k ∈ inums,
      ∃ arr, f.cells[it * f.nItems + (k + offset)]? = some arr ∧
        (maskDelete f.deleteValueFloat arr).length = f.nElements) →
    Dfsu.readLoop f offset inums tsteps =
      Except.ok (tsteps.map (fun it => inums.map (fun k =>
          maskDelete f.deleteValueFloat
            ((f.cells[it * f.nItems + (k + offset)]?).getD []))),
        tsteps.map (fun it => f.dt * (it : ℚ)))
  | [], _ => by simp [Dfsu.readLoop]
  | it :: rest, h => by
    have hstep := readStep_ok f offset it inums
      (fun k hm => h it (List.mem_cons_self it rest) k hm)
    have hrest := readLoop_ok f offset inums hne rest
      (fun it2 hm => h it2 (List.mem_cons_of_mem _ hm))
    rw [Dfsu.readLoop, hstep]
    simp only [if_neg hne, hrest]
    rfl

/-- Reading a mapped range entry with a default. -/
lemma getD_map_range {α : Type} (d : α) (n i : Nat) (h : i < n) (g : Nat → α) :
    ((List.range n).map g).getD i d = g i := by
  rw [List.getD_eq_getElem?_getD, List.getElem?_map, List.getElem?_range h]
  rfl

/-- The cell written for (time `it`, item `k`) sits at flat position
`it * nI + k` of the nested-order cell sequence. -/
lemma getElem?_writtenCells {α : Type} (nT nI it k : Nat) (hit : it < nT)
    (hk : k < nI) (g : Nat → Nat → α) :
    ((List.range nT).flatMap (fun i => (List.range nI).map (fun item =>
      g item i)))[it * nI + k]? = some (g k it) := by
  have hflat : (List.range nT).flatMap (fun i => (List.range nI).map (fun item =>
      g item i)) = ((List.range nT).map (fun i => (List.range nI).map (fun item =>
      g item i))).flatten := rfl
  rw [hflat, getElem?_flatten_uniform nI _ it k ?hlen ?hi hk]
  · rw [getD_map_range _ _ _ hit, List.getElem?_map, List.getElem?_range hk]
    rfl
  case hlen =>
    intro c hc
    obtain ⟨i, -, rfl⟩ := List.mem_map.mp hc
    simp
  case hi =>
    simpa using hit

/-- Unfolding of `Dfsu.read` with default selections on a 2D container:
offset 0, all items, all time steps. -/
lemma read_2D_default (f : DfsuFileM) (hft : f.fileType = DfsuFileTypeM.dfsu2D) :
    Dfsu.read f none none =
      match Dfsu.readLoop f 0 (List.range f.nItems) (List.range f.nTimeSteps) with
      | Except.error e => { result := Except.error e, closed := false }
      | Except.ok (rows, tsecs) =>
        { result := Except.ok
            { data := Dfsu.transposeRows f.nItems rows
              time := tsecs.map (fun s => f.startTimeSec + s)
              items := get_item_info f (List.range f.nItems) }
          closed := true } := by
  rw [Dfsu.read]
  simp [hft]

/-- Reading back a 2D container whose cells hold exactly the nan-masked
rows of `data` in nested (time, item) order recovers `data` itself,
provided no supplied finite sample equals the delete value. This is the
shared core of the write and create round trips. -/
lemma read_masked_cells (f : DfsuFileM) (data : List (List (List Fl)))
    (hft : f.fileType = DfsuFileTypeM.dfsu2D)
    (hlen : data.length = f.nItems)
    (hpos : 0 < f.nItems)
    (hrows : ∀ arr ∈ data, arr.length = f.nTimeSteps)
    (hcols : ∀ arr ∈ data, ∀ row ∈ arr, row.length = f.nElements)
    (hnodv : ∀ arr ∈ data, ∀ row ∈ arr, Fl.fin f.deleteValueFloat ∉ row)
    (hcellsEq : f.cells = (List.range f.nTimeSteps).flatMap
      (fun i => (List.range f.nItems).map (fun item =>
        maskNan f.deleteValueFloat ((rowAt data item i).getD [])))) :
    (Dfsu.read f none none).result =
      Except.ok
        { data := data
          time := (List.range f.nTimeSteps).map
            (fun it => f.startTimeSec + f.dt * (it : ℚ))
          items := get_item_info f (List.range f.nItems) } := by
  have hrowfacts : ∀ item ∈ List.range f.nItems, ∀ i ∈ List.range f.nTimeSteps,
      ∃ row, rowAt data item i = some row ∧ row.length = f.nElements ∧
        Fl.fin f.deleteValueFloat ∉ row := by
    intro item hitem i hi
    rw [List.mem_range] at hitem hi
    have hitem2 : item < data.length := hlen ▸ hitem
    have hmem : data[item] ∈ data := List.getElem_mem hitem2
    have hi2 : i < data[item].length := by rw [hrows _ hmem]; exact hi
    have hrmem : data[item][i] ∈ data[item] := List.getElem_mem hi2
    refine ⟨data[item][i], ?_, hcols _ hmem _ hrmem, hnodv _ hmem _ hrmem⟩
    rw [rowAt, List.getElem?_eq_getElem hitem2, Option.some_bind,
      List.getElem?_eq_getElem hi2]
  rw [read_2D_default f hft]
  have hprov : ∀ it ∈ List.range f.nTimeSteps, ∀ k ∈ List.range f.nItems,
      ∃ arr, f.cells[it * f.nItems + (k + 0)]? = some arr ∧
        (maskDelete f.deleteValueFloat arr).length = f.nElements := by
    intro it hit k hk
    obtain ⟨row, hrow, hrlen, -⟩ := hrowfacts k hk it hit
    rw [List.mem_range] at hit hk
    refine ⟨maskNan f.deleteValueFloat ((rowAt data k it).getD []), ?_, ?_⟩
    · rw [Nat.add_zero, hcellsEq]
      exact getElem?_writtenCells f.nTimeSteps f.nItems it k hit hk _
    · rw [hrow, Option.getD_some, maskDelete_length, maskNan_length]
      exact hrlen
  have hne : List.range f.nItems ≠ [] := by
    simpa [List.range_eq_nil] using Nat.pos_iff_ne_zero.mp hpos
  have hLoop := readLoop_ok f 0 (List.range f.nItems) hne
    (List.range f.nTimeSteps) hprov
  rw [hLoop]
  dsimp only
  congr 1
  congr 1
  · -- the data matrices round-trip to the original arrays
    have hinner : ∀ it ∈ List.range f.nTimeSteps,
        (List.range f.nItems).map (fun k => maskDelete f.deleteValueFloat
          ((f.cells[it * f.nItems + (k + 0)]?).getD [])) =
        (List.range f.nItems).map (fun k => (rowAt data k it).getD []) := by
      intro it hit
      apply List.map_congr_left
      intro k hk
      obtain ⟨row, hrow, -, hnd⟩ := hrowfacts k hk it hit
      rw [List.mem_range] at hit hk
      rw [Nat.add_zero, hcellsEq,
        getElem?_writtenCells f.nTimeSteps f.nItems it k hit hk]
      rw [Option.getD_some, hrow, Option.getD_some, maskDelete_maskNan _ _ hnd]
    rw [List.map_congr_left hinner, Dfsu.transposeRows]
    have houter : ∀ item ∈ List.range f.nItems,
        ((List.range f.nTimeSteps).map (fun it =>
          (List.range f.nItems).map (fun k => (rowAt data k it).getD []))).map
            (fun r => r.getD item []) =
        (List.range f.nTimeSteps).map (fun it => (rowAt data item it).getD []) := by
      intro item hitem
      rw [List.map_map]
      apply List.map_congr_left
      intro it hit
      rw [List.mem_range] at hitem
      exact getD_map_range _ _ _ hitem _
    calc (List.range f.nItems).map (fun item =>
            ((List.range f.nTimeSteps).map (fun it =>
              (List.range f.nItems).map (fun k => (rowAt data k it).getD []))).map
                (fun r => r.getD item []))
        = (List.range f.nItems).map (fun item =>
            (List.range f.nTimeSteps).map (fun it => (rowAt data item it).getD [])) :=
          List.map_congr_left houter
      _ = data := by
          rw [← hlen]
          have hfin : ∀ item ∈ List.range data.length,
              (List.range f.nTimeSteps).map (fun it => (rowAt data item it).getD []) =
              data.getD item [] := by
            intro item hitem
            rw [List.mem_range] at hitem
            have hmem : data[item] ∈ data := List.getElem_mem hitem
            have hT : f.nTimeSteps = data[item].length := (hrows _ hmem).symm
            have hgd : data.getD item [] = data[item] := by
              rw [List.getD_eq_getElem?_getD, List.getElem?_eq_getElem hitem]
              rfl
            rw [hgd, hT]
            have hrw : ∀ it ∈ List.range data[item].length,
                (rowAt data item it).getD [] = data[item].getD it [] := by
              intro it hit
              rw [rowAt, List.getElem?_eq_getElem hitem, Option.some_bind,
                List.getD_eq_getElem?_getD]
            rw [List.map_congr_left hrw]
            exact map_getD_range _ _
          rw [List.map_congr_left hfin]
          exact map_getD_range _ _
  · -- the time axis
    rw [List.map_map]
    rfl

/-! ### Claim theorems -/

/-- **C1 (amended round trip).** Writing a data list into an existing 2D
container with `write`, or creating a fresh file from a mesh with
`create`, then reading the file back with `read`, recovers exactly the
supplied arrays, times and item metadata, provided the container is 2D
with at least one item, the data matches the container's shape, and no
supplied finite sample equals the delete value (`create` always builds a
2D container with the builder's default delete value, item count
`len(data)` and time count `len(data[0])`, so for it the provisos reduce
to nonempty data of uniform shape avoiding that sentinel, with any
explicit item list matching `len(data)`). Each proviso is forced by a
conjunct of `C1_roundtrip_counterexample`. -/
theorem C1_roundtrip :
    (∀ (f : DfsuFileM) (data : List (List (List Fl))),
      f.fileType = DfsuFileTypeM.dfsu2D →
      data.length = f.nItems →
      0 < f.nItems →
      (∀ arr ∈ data, arr.length = f.nTimeSteps) →
      (∀ arr ∈ data, ∀ row ∈ arr, row.length = f.nElements) →
      (∀ arr ∈ data, ∀ row ∈ arr, Fl.fin f.deleteValueFloat ∉ row) →
      (Dfsu.write f data).result = Except.ok () ∧
      (Dfsu.read (Dfsu.write f data).file none none).result =
        Except.ok
          { data := data
            time := (List.range f.nTimeSteps).map
              (fun it => f.startTimeSec + f.dt * (it : ℚ))
            items := get_item_info f (List.range f.nItems) }) ∧
    (∀ (mesh : MeshM) (data : List (List (List Fl))) (t0 dt : ℚ)
      (items : Option (List ItemInfoM)) (title : Option String),
      data ≠ [] →
      (∀ l, items = some l → l.length = data.length) →
      (∀ arr ∈ data, arr.length = (data.headD []).length) →
      (∀ arr ∈ data, ∀ row ∈ arr, row.length = mesh.elementTable.length) →
      (∀ arr ∈ data, ∀ row ∈ arr, Fl.fin defaultDeleteValueFloat ∉ row) →
      (Dfsu.create mesh true data t0 dt items title).result = Except.ok () ∧
      (Dfsu.read ((Dfsu.create mesh true data t0 dt items title).file.getD
          default) none none).result =
        Except.ok
          { data := data
            time := (List.range (data.headD []).length).map
              (fun it => t0 + dt * (it : ℚ))
            items := items.getD ((List.range data.length).map
              (fun i => { name := "temItem " ++ toString (i + 1) })) }) := by
  refine ⟨fun f data hft hlen hpos hrows hcols hnodv => ?_,
    fun mesh data t0 dt items title hne hil hrows hcols hnodv => ?_⟩
  · -- the write round trip
    have hrowfacts : ∀ item ∈ List.range f.nItems, ∀ i ∈ List.range f.nTimeSteps,
        ∃ row, rowAt data item i = some row := by
      intro item hitem i hi
      rw [List.mem_range] at hitem hi
      have hitem2 : item < data.length := hlen ▸ hitem
      have hmem : data[item] ∈ data := List.getElem_mem hitem2
      have hi2 : i < data[item].length := by rw [hrows _ hmem]; exact hi
      refine ⟨data[item][i], ?_⟩
      rw [rowAt, List.getElem?_eq_getElem hitem2, Option.some_bind,
        List.getElem?_eq_getElem hi2]
    obtain ⟨data2, heqW, -⟩ :=
      writeLoop_ok f.deleteValueFloat (List.range f.nItems) (List.nodup_range _)
        (List.range f.nTimeSteps) data [] (List.nodup_range _) hrowfacts
    set cellsW : List (List Fl) := (List.range f.nTimeSteps).flatMap (fun i =>
      (List.range f.nItems).map (fun item =>
        maskNan f.deleteValueFloat ((rowAt data item i).getD []))) with hcells
    have hwrite : Dfsu.write f data =
        { result := Except.ok (), dataAfter := data2,
          file := { f with cells := cellsW }, closed := true } := by
      rw [Dfsu.write, heqW, hcells]
      rfl
    refine ⟨by rw [hwrite], ?_⟩
    rw [hwrite]
    exact read_masked_cells { f with cells := cellsW } data hft hlen hpos
      hrows hcols hnodv hcells
  · -- the create round trip
    obtain ⟨arr0, rest, rfl⟩ : ∃ arr0 rest, data = arr0 :: rest := by
      cases data with
      | nil => exact absurd rfl hne
      | cons a l => exact ⟨a, l, rfl⟩
    have hrowfacts : ∀ item ∈ List.range (arr0 :: rest).length,
        ∀ i ∈ List.range arr0.length,
        ∃ row, rowAt (arr0 :: rest) item i = some row := by
      intro item hitem i hi
      rw [List.mem_range] at hitem hi
      have hmem : (arr0 :: rest)[item] ∈ arr0 :: rest := List.getElem_mem hitem
      have hi2 : i < (arr0 :: rest)[item].length := by
        rw [hrows _ hmem]; exact hi
      refine ⟨(arr0 :: rest)[item][i], ?_⟩
      rw [rowAt, List.getElem?_eq_getElem hitem, Option.some_bind,
        List.getElem?_eq_getElem hi2]
    obtain ⟨data2, heqW, -⟩ :=
      writeLoop_ok defaultDeleteValueFloat (List.range (arr0 :: rest).length)
        (List.nodup_range _) (List.range arr0.length) (arr0 :: rest) []
        (List.nodup_range _) hrowfacts
    set its : List ItemInfoM := items.getD ((List.range (arr0 :: rest).length).map
      (fun i => { name := "temItem " ++ toString (i + 1) })) with hitsdef
    have hits : its.length = (arr0 :: rest).length := by
      cases items with
      | none => rw [hitsdef]; simp
      | some l => rw [hitsdef]; simpa using hil l rfl
    set fc : DfsuFileM :=
      { fileType := DfsuFileTypeM.dfsu2D
        deleteValueFloat := defaultDeleteValueFloat
        nTimeSteps := arr0.length
        nElements := mesh.elementTable.length
        startTimeSec := t0
        dt := dt
        itemInfos := its
        projectionWKT := mesh.projectionString
        nodeX := mesh.x
        nodeY := mesh.y
        nodeZ := mesh.z
        nodeCode := mesh.code
        elementTable := mesh.elementTable
        cells := (List.range arr0.length).flatMap (fun i =>
          (List.range (arr0 :: rest).length).map (fun item =>
            maskNan defaultDeleteValueFloat
              ((rowAt (arr0 :: rest) item i).getD []))) } with hfc
    have hcreate : Dfsu.create mesh true (arr0 :: rest) t0 dt items title =
        { result := Except.ok (), declaredItems := its, file := some fc,
          dataAfter := data2, printed := [], closed := true } := by
      rw [hfc, hitsdef, Dfsu.create]
      simp only [List.head?, if_true]
      rw [heqW]
      rfl
    have hlen2 : (arr0 :: rest).length = DfsuFileM.nItems fc := hits.symm
    have hpos2 : 0 < DfsuFileM.nItems fc := by
      show 0 < its.length
      rw [hits]
      exact Nat.succ_pos _
    have hrows2 : ∀ arr ∈ arr0 :: rest, arr.length = fc.nTimeSteps := hrows
    have hcols2 : ∀ arr ∈ arr0 :: rest, ∀ row ∈ arr,
        row.length = fc.nElements := hcols
    have hnodv2 : ∀ arr ∈ arr0 :: rest, ∀ row ∈ arr,
        Fl.fin fc.deleteValueFloat ∉ row := hnodv
    have hcellsEq : fc.cells = (List.range fc.nTimeSteps).flatMap (fun i =>
        (List.range (DfsuFileM.nItems fc)).map (fun item =>
          maskNan fc.deleteValueFloat ((rowAt (arr0 :: rest) item i).getD []))) := by
      have h1 : DfsuFileM.nItems fc = (arr0 :: rest).length := hits
      rw [h1]
    have hitems : get_item_info fc (List.range (DfsuFileM.nItems fc)) = its := by
      rw [get_item_info]
      exact map_getD_range default its
    have hread := read_masked_cells fc (arr0 :: rest) rfl hlen2 hpos2
      hrows2 hcols2 hnodv2 hcellsEq
    refine ⟨by rw [hcreate], ?_⟩
    rw [hcreate]
    show (Dfsu.read fc none none).result = _
    rw [hread, hitems]
    rfl

/-- **C1 counterexample.** Each proviso of the amended round trip is
forced. First, a finite sample equal to the delete value: `exFile` has
delete value -99, the supplied `exDataDel` holds the finite -99 at
position (0,0,0), and after `write` then `read` the Dataset holds
not-a-number there instead. Second, the 2D restriction: on the 3D
container `ex3DFile` (two items, the dynamic-Z pseudo-item first) the
default read skips the pseudo-item but fetches cells at unshifted flat
positions, so the supplied finite 2 at (0,0,0) of `exData3` comes back as
the other item's masked not-a-number. Third, at least one item: on the
zero-item container `exZeroFile` the write succeeds yet the read raises
the unbound-`itemdata` NameError, so no Dataset is recovered at all. -/
theorem C1_roundtrip_counterexample :
    (exDataDel = [[[Fl.fin (-99), Fl.fin 5], [Fl.fin 7, Fl.nan]]] ∧
      exFile.deleteValueFloat = -99 ∧
      (Dfsu.read (Dfsu.write exFile exDataDel).file none none).result =
        Except.ok
          { data := [[[Fl.nan, Fl.fin 5], [Fl.fin 7, Fl.nan]]]
            time := [exFile.startTimeSec + exFile.dt * ((0 : Nat) : ℚ),
              exFile.startTimeSec + exFile.dt * ((1 : Nat) : ℚ)]
            items := [{ name := "Surface" }] } ∧
      Fl.fin (-99) ≠ Fl.nan) ∧
    (ex3DFile.fileType = DfsuFileTypeM.dfsu3DSigma ∧
      exData3 = [[[Fl.fin 2]], [[Fl.nan]]] ∧
      (Dfsu.read (Dfsu.write ex3DFile exData3).file none none).result =
        Except.ok
          { data := [[[Fl.nan]]]
            time := [ex3DFile.startTimeSec + ex3DFile.dt * ((0 : Nat) : ℚ)]
            items := [{ name := "Z" }] } ∧
      Fl.fin 2 ≠ Fl.nan) ∧
    (DfsuFileM.nItems exZeroFile = 0 ∧
      (Dfsu.write exZeroFile []).result = Except.ok () ∧
      (Dfsu.read (Dfsu.write exZeroFile []).file none none).result =
        Except.error PyError.nameError) :=
  ⟨⟨rfl, rfl, rfl, by decide⟩, ⟨rfl, rfl, rfl, by decide⟩, ⟨rfl, rfl, rfl⟩⟩

/-- **C1 witness.** Both halves of the amended round trip at concrete
inputs: `write` on the container `exFile` with the data `exData` (one
item, two time steps, two elements, not-a-number at two positions, no
sample equal to the delete value), and `create` from the mesh `exMesh`
with one item holding a finite and a not-a-number sample over two time
steps, items and title omitted. -/
theorem C1_roundtrip_witness :
    ((Dfsu.write exFile exData).result = Except.ok () ∧
      (Dfsu.read (Dfsu.write exFile exData).file none none).result =
        Except.ok
          { data := exData
            time := (List.range exFile.nTimeSteps).map
              (fun it => exFile.startTimeSec + exFile.dt * (it : ℚ))
            items := get_item_info exFile (List.range exFile.nItems) }) ∧
    ((Dfsu.create exMesh true [[[Fl.fin 1], [Fl.nan]]] 0 1 none none).result =
        Except.ok () ∧
      (Dfsu.read ((Dfsu.create exMesh true [[[Fl.fin 1], [Fl.nan]]] 0 1 none
          none).file.getD default) none none).result =
        Except.ok
          { data := [[[Fl.fin 1], [Fl.nan]]]
            time := (List.range 2).map (fun it => (0 : ℚ) + 1 * (it : ℚ))
            items := (List.range 1).map
              (fun i => ({ name := "temItem " ++ toString (i + 1) } : ItemInfoM)) }) :=
  ⟨C1_roundtrip.1 exFile exData (by decide) (by decide) (by decide) (by decide)
      (by decide) (by decide),
    C1_roundtrip.2 exMesh [[[Fl.fin 1], [Fl.nan]]] 0 1 none none (by decide)
      (fun l hl => Option.noConfusion hl) (by decide) (by decide)
      (by norm_num [defaultDeleteValueFloat]; simp)⟩

/-- **C3 (amended).** Each of `read`, `write` and `create` closes its
container handle exactly on the successful exit path: the close flag
coincides with success of the result, so on error exits — a mid-operation
provider failure included — the handle is not released (the source has no
try/finally; `dfsu.py` lines 99, 129, 216). Refuted as originally stated
by `C3_handle_release_counterexample`. -/
theorem C3_handle_release :
    (∀ (f : DfsuFileM) (inums : Option (List Nat)) (tsteps : Option (List Nat)),
      (Dfsu.read f inums tsteps).closed = (Dfsu.read f inums tsteps).result.isOk) ∧
    (∀ (f : DfsuFileM) (data : List (List (List Fl))),
      (Dfsu.write f data).closed = (Dfsu.write f data).result.isOk) ∧
    (∀ (mesh : MeshM) (canCreate : Bool) (data : List (List (List Fl)))
      (t0 dt : ℚ) (items : Option (List ItemInfoM)) (title : Option String),
      (Dfsu.create mesh canCreate data t0 dt items title).closed =
        (Dfsu.create mesh canCreate data t0 dt items title).result.isOk) := by
  refine ⟨fun f inums tsteps => ?_, fun f data => ?_,
    fun mesh canCreate data t0 dt items title => ?_⟩
  · rw [Dfsu.read]
    split <;> rfl
  · rw [Dfsu.write]
    split <;> rfl
  · rw [Dfsu.create]
    split
    · rfl
    · split
      · dsimp only
        split <;> rfl
      · rfl

/-- **C3 counterexample.** On the corrupt container `exBadFile` (one
advertised time step, no stored cells) the provider read fails; `read`
returns with the error and the handle has not been closed, refuting
release on every exit path. -/
theorem C3_handle_release_counterexample :
    (Dfsu.read exBadFile none none).result = Except.error PyError.ioError ∧
    (Dfsu.read exBadFile none none).closed = false := by
  exact ⟨by decide, by decide⟩

/-- **C4.** When the target cannot be created (`builder.CreateFile` raises
an IOError), `create` does not surface a CreateFailed-style error: it
catches the IOError, prints a message, and then fails with a NameError at
`dfs.DeleteValueFloat` because `dfs` was never bound (dfsu.py lines
201-206). No data writes are attempted and the handle flag is never
closed. -/
theorem C4_create_swallows_error :
    (Dfsu.create exMesh false [[[Fl.fin 1]]] 0 1 none none).result =
      Except.error PyError.nameError ∧
    (Dfsu.create exMesh false [[[Fl.fin 1]]] 0 1 none none).result ≠
      Except.error PyError.createFailed ∧
    (Dfsu.create exMesh false [[[Fl.fin 1]]] 0 1 none none).printed =
      ["cannot create dfsu file: "] ∧
    (Dfsu.create exMesh false [[[Fl.fin 1]]] 0 1 none none).file = none ∧
    (Dfsu.create exMesh false [[[Fl.fin 1]]] 0 1 none none).closed = false := by
  refine ⟨by decide, by decide, ?_, by decide, by decide⟩
  rfl

/-- **C5 counterexample.** With `items` omitted, `create` declares the
default item name "temItem 1" (dfsu.py line 172), not "Item 1" as the
claim states. -/
theorem C5_default_items_counterexample :
    ((Dfsu.create exMesh true [[[Fl.fin 1], [Fl.nan]]] 0 1 none none).declaredItems.map
      (fun d => d.name)) = ["temItem 1"] ∧
    ¬ ((Dfsu.create exMesh true [[[Fl.fin 1], [Fl.nan]]] 0 1 none none).declaredItems.map
      (fun d => d.name)) = ["Item 1"] := by
  exact ⟨by decide, by decide⟩

/-- **C5 (amended).** With `items` omitted and nonempty data, `create`
declares exactly `len(data)` dynamic items, named "temItem 1", "temItem 2",
…, "temItem N" in order, each with undefined quantity type and unit. -/
theorem C5_default_items (mesh : MeshM) (canCreate : Bool)
    (data : List (List (List Fl))) (t0 dt : ℚ) (title : Option String)
    (hne : data ≠ []) :
    (Dfsu.create mesh canCreate data t0 dt none title).declaredItems =
      (List.range data.length).map (fun i =>
        { name := "temItem " ++ toString (i + 1)
          itemType := EumTypeM.undefined
          unit := EumUnitM.undefined }) ∧
    (Dfsu.create mesh canCreate data t0 dt none title).declaredItems.length =
      data.length ∧
    ∀ d ∈ (Dfsu.create mesh canCreate data t0 dt none title).declaredItems,
      d.itemType = EumTypeM.undefined ∧ d.unit = EumUnitM.undefined := by
  obtain ⟨arr0, rest, rfl⟩ : ∃ arr0 rest, data = arr0 :: rest := by
    cases data with
    | nil => exact absurd rfl hne
    | cons a r => exact ⟨a, r, rfl⟩
  have hdecl : (Dfsu.create mesh canCreate (arr0 :: rest) t0 dt none title).declaredItems =
      (List.range (arr0 :: rest).length).map (fun i =>
        ({ name := "temItem " ++ toString (i + 1) } : ItemInfoM)) := by
    rw [Dfsu.create]
    simp only [List.head?]
    cases canCreate with
    | false => simp
    | true =>
      simp only [if_true]
      split <;> simp
  refine ⟨hdecl, ?_, ?_⟩
  · rw [hdecl]
    simp
  · intro d hd
    rw [hdecl] at hd
    obtain ⟨i, -, rfl⟩ := List.mem_map.mp hd
    exact ⟨rfl, rfl⟩

/-- **C5 witness.** The amended default item declaration at concrete data
with one item. -/
theorem C5_default_items_witness :
    ([[[Fl.fin 1], [Fl.nan]]] : List (List (List Fl))) ≠ [] ∧
    (Dfsu.create exMesh true [[[Fl.fin 1], [Fl.nan]]] 0 1 none none).declaredItems =
      (List.range 1).map (fun i =>
        { name := "temItem " ++ toString (i + 1)
          itemType := EumTypeM.undefined
          unit := EumUnitM.undefined }) :=
  ⟨by decide,
    (C5_default_items exMesh true [[[Fl.fin 1], [Fl.nan]]] 0 1 none (by decide)).1⟩

/-- A successful read step yields one row per selected item, each of
element-count length (the numpy row assignment enforces it). -/
lemma readStep_shapes (f : DfsuFileM) (offset it : Nat) :
    ∀ (inums : List Nat) (rows : List (List Fl)) (lastT : Option ℚ),
    Dfsu.readStep f offset it inums = Except.ok (rows, lastT) →
    rows.length = inums.length ∧ ∀ r ∈ rows, r.length = f.nElements
  | [], rows, lastT, h => by
    rw [Dfsu.readStep] at h
    simp only [Except.ok.injEq, Prod.mk.injEq] at h
    obtain ⟨h1, -⟩ := h
    subst h1
    exact ⟨rfl, by simp⟩
  | k :: rest, rows, lastT, h => by
    rw [Dfsu.readStep] at h
    cases hp : f.readItemTimeStep (k + offset + 1) it with
    | error e => rw [hp] at h; exact absurd h (by simp)
    | ok pr =>
      obtain ⟨t, src⟩ := pr
      rw [hp] at h
      dsimp only at h
      by_cases hlen : (maskDelete f.deleteValueFloat src).length = f.nElements
      · rw [if_pos hlen] at h
        cases hr : Dfsu.readStep f offset it rest with
        | error e => rw [hr] at h; exact absurd h (by simp)
        | ok pr2 =>
          obtain ⟨rows2, lastT2⟩ := pr2
          rw [hr] at h
          simp only [Except.ok.injEq, Prod.mk.injEq] at h
          obtain ⟨h1, -⟩ := h
          subst h1
          obtain ⟨ih1, ih2⟩ := readStep_shapes f offset it rest rows2 lastT2 hr
          refine ⟨by simp [ih1], ?_⟩
          intro r hrm
          rcases List.mem_cons.mp hrm with rfl | hmem
          · exact hlen
          · exact ih2 r hmem
      · rw [if_neg hlen] at h
        exact absurd h (by simp)

/-- A successful read loop yields one row list per selected time step, one
elapsed time per step, each row list one row per item, each row of
element-count length. -/
lemma readLoop_shapes (f : DfsuFileM) (offset : Nat) (inums : List Nat) :
    ∀ (tsteps : List Nat) (rowsL : List (List (List Fl))) (tsecs : List ℚ),
    Dfsu.readLoop f offset inums tsteps = Except.ok (rowsL, tsecs) →
    rowsL.length = tsteps.length ∧ tsecs.length = tsteps.length ∧
      ∀ rl ∈ rowsL, rl.length = inums.length ∧ ∀ r ∈ rl, r.length = f.nElements
  | [], rowsL, tsecs, h => by
    rw [Dfsu.readLoop] at h
    simp only [Except.ok.injEq, Prod.mk.injEq] at h
    obtain ⟨h1, h2⟩ := h
    subst h1; subst h2
    exact ⟨rfl, rfl, by simp⟩
  | it :: rest, rowsL, tsecs, h => by
    rw [Dfsu.readLoop] at h
    cases hp : Dfsu.readStep f offset it inums with
    | error e => rw [hp] at h; exact absurd h (by simp)
    | ok pr =>
      obtain ⟨rows, lastT⟩ := pr
      rw [hp] at h
      dsimp only at h
      cases lastT with
      | none => exact absurd h (by simp)
      | some t =>
        cases hr : Dfsu.readLoop f offset inums rest with
        | error e => rw [hr] at h; exact absurd h (by simp)
        | ok pr2 =>
          obtain ⟨rs, ts⟩ := pr2
          rw [hr] at h
          simp only [Except.ok.injEq, Prod.mk.injEq] at h
          obtain ⟨h1, h2⟩ := h
          subst h1; subst h2
          obtain ⟨ih1, ih2, ih3⟩ := readLoop_shapes f offset inums rest rs ts hr
          refine ⟨by simp [ih1], by simp [ih2], ?_⟩
          intro rl hrl
          rcases List.mem_cons.mp hrl with rfl | hmem
          · exact readStep_shapes f offset it inums rl (some t) hp
          · exact ih3 rl hmem

/-- **C9.** Every Dataset returned by `read` has as many item descriptors
as data arrays; every data array has one row per selected time step (the
length of the time axis) and every row has the container's element count
of samples. -/
theorem C9_read_shapes (f : DfsuFileM) (inums : Option (List Nat))
    (tsteps : Option (List Nat)) (ds : DatasetM)
    (h : (Dfsu.read f inums tsteps).result = Except.ok ds) :
    ds.items.length = ds.data.length ∧
    ds.time.length = (tsteps.getD (List.range f.nTimeSteps)).length ∧
    ∀ arr ∈ ds.data, arr.length = ds.time.length ∧
      ∀ row ∈ arr, row.length = f.nElements := by
  rw [Dfsu.read] at h
  split at h
  · exact absurd h (by simp)
  · rename_i rows tsecs heq
    simp only [Except.ok.injEq] at h
    subst h
    obtain ⟨hL1, hL2, hL3⟩ := readLoop_shapes f _ _ _ rows tsecs heq
    refine ⟨by simp [get_item_info, Dfsu.transposeRows], by simp [hL2], ?_⟩
    intro arr harr
    rw [Dfsu.transposeRows] at harr
    obtain ⟨item, hitem, rfl⟩ := List.mem_map.mp harr
    rw [List.mem_range] at hitem
    constructor
    · simp [hL1, hL2]
    · intro row hrow
      obtain ⟨r, hr, rfl⟩ := List.mem_map.mp hrow
      obtain ⟨hrl, hre⟩ := hL3 r hr
      have hitem2 : item < r.length := by rw [hrl]; exact hitem
      have : r.getD item [] = r[item] := by
        rw [List.getD_eq_getElem?_getD, List.getElem?_eq_getElem hitem2]
        rfl
      rw [this]
      exact hre _ (List.getElem_mem hitem2)

/-- **C9 witness.** A successful concrete read: one item, two time steps,
two elements; the Dataset's shapes line up with the selection. -/
theorem C9_read_shapes_witness :
    (Dfsu.read exFilled none none).result = Except.ok exDs ∧
    (exDs.items.length = exDs.data.length ∧
      exDs.time.length = ((none : Option (List Nat)).getD
        (List.range exFilled.nTimeSteps)).length ∧
      ∀ arr ∈ exDs.data, arr.length = exDs.time.length ∧
        ∀ row ∈ arr, row.length = exFilled.nElements) :=
  ⟨rfl, C9_read_shapes exFilled none none exDs rfl⟩

/-- **C10.** `write` and `create` mutate the caller's data arrays in
place: the numpy row view `d = data[item][i, :]` is masked by
`d[np.isnan(d)] = deletevalue` (dfsu.py lines 124-125 and 211-212), so
after the call every supplied row over the written time steps carries the
delete value where not-a-number stood, and all other rows are untouched. -/
theorem C10_inplace_mutation :
    (∀ (f : DfsuFileM) (data : List (List (List Fl))),
      (∀ item ∈ List.range f.nItems, ∀ i ∈ List.range f.nTimeSteps,
        (rowAt data item i).isSome = true) →
      ∀ item i, rowAt (Dfsu.write f data).dataAfter item i =
        if item ∈ List.range f.nItems ∧ i ∈ List.range f.nTimeSteps
        then (rowAt data item i).map (maskNan f.deleteValueFloat)
        else rowAt data item i) ∧
    (∀ (mesh : MeshM) (arr0 : List (List Fl)) (rest : List (List (List Fl)))
      (t0 dt : ℚ) (items : Option (List ItemInfoM)) (title : Option String),
      (∀ item ∈ List.range (arr0 :: rest).length, ∀ i ∈ List.range arr0.length,
        (rowAt (arr0 :: rest) item i).isSome = true) →
      ∀ item i,
        rowAt (Dfsu.create mesh true (arr0 :: rest) t0 dt items title).dataAfter item i =
          if item ∈ List.range (arr0 :: rest).length ∧ i ∈ List.range arr0.length
          then (rowAt (arr0 :: rest) item i).map (maskNan defaultDeleteValueFloat)
          else rowAt (arr0 :: rest) item i) := by
  refine ⟨fun f data hex item i => ?_,
    fun mesh arr0 rest t0 dt items title hex item i => ?_⟩
  · obtain ⟨data2, heqW, hcharW⟩ :=
      writeLoop_ok f.deleteValueFloat (List.range f.nItems) (List.nodup_range _)
        (List.range f.nTimeSteps) data [] (List.nodup_range _)
        (fun it hm i2 hi => Option.isSome_iff_exists.mp (hex it hm i2 hi))
    have hda : (Dfsu.write f data).dataAfter = data2 := by
      rw [Dfsu.write, heqW]
    rw [hda, hcharW]
  · obtain ⟨data2, heqW, hcharW⟩ :=
      writeLoop_ok defaultDeleteValueFloat (List.range (arr0 :: rest).length)
        (List.nodup_range _) (List.range arr0.length) (arr0 :: rest) []
        (List.nodup_range _)
        (fun it hm i2 hi => Option.isSome_iff_exists.mp (hex it hm i2 hi))
    have hda : (Dfsu.create mesh true (arr0 :: rest) t0 dt items title).dataAfter =
        data2 := by
      rw [Dfsu.create]
      simp only [List.head?, if_true]
      rw [heqW]
    rw [hda, hcharW]

/-- **C10 witness.** At the concrete container and data of the round-trip
fixture, the caller's row (0,0) — which held not-a-number at element 0 —
has been overwritten in place with the delete value -99. -/
theorem C10_inplace_mutation_witness :
    rowAt (Dfsu.write exFile exData).dataAfter 0 0 =
      some [Fl.fin (-99), Fl.fin 5] := by
  have h := C10_inplace_mutation.1 exFile exData (by decide) 0 0
  rw [h]
  decide

/-! ### Node-coordinate stacking and filtering -/

/-- The stacked (x, y, z) node triples, read positionally. -/
lemma zip3_eq_range_map :
    ∀ (xs ys zs : List ℚ), ys.length = xs.length → zs.length = xs.length →
    (xs.zip (ys.zip zs)).map (fun p => (p.1, p.2.1, p.2.2)) =
      (List.range xs.length).map
        (fun i => (xs.getD i 0, ys.getD i 0, zs.getD i 0))
  | [], [], [], _, _ => rfl
  | [], y :: ys, zs, hy, hz => by simp at hy
  | [], [], z :: zs, hy, hz => by simp at hz
  | x :: xs, [], zs, hy, hz => by simp at hy
  | x :: xs, y :: ys, [], hy, hz => by simp at hz
  | x :: xs, y :: ys, z :: zs, hy, hz => by
    have hy2 : ys.length = xs.length := by simpa using hy
    have hz2 : zs.length = xs.length := by simpa using hz
    have ih := zip3_eq_range_map xs ys zs hy2 hz2
    rw [List.zip_cons_cons, List.zip_cons_cons, List.map_cons,
      List.length_cons, List.range_succ_eq_map, List.map_cons, List.map_map]
    congr 1

/-- Filtering the code-stacked triples equals the positional subsequence
of triples at positions whose code matches. -/
lemma filter_zip_eq_filterMap (c : ℤ) :
    ∀ (cs : List ℤ) (nc : List (ℚ × ℚ × ℚ)), cs.length = nc.length →
    ((cs.zip nc).filter (fun p => p.1 == c)).map (fun p => p.2) =
      (List.range cs.length).filterMap (fun i =>
        if cs.getD i 0 = c then some (nc.getD i (0, 0, 0)) else none)
  | [], [], _ => rfl
  | [], x :: nc, h => by simp at h
  | a :: cs, [], h => by simp at h
  | a :: cs, x :: nc, h => by
    have h2 : cs.length = nc.length := by simpa using h
    have ih := filter_zip_eq_filterMap c cs nc h2
    have hcomp : ((fun i => if (a :: cs).getD i 0 = c then
        some ((x :: nc).getD i ((0 : ℚ), (0 : ℚ), (0 : ℚ))) else none) ∘ Nat.succ) =
        fun i => if cs.getD i 0 = c then some (nc.getD i (0, 0, 0)) else none := by
      funext i; rfl
    rw [List.zip_cons_cons, List.length_cons, List.range_succ_eq_map,
      List.filterMap_cons, List.filterMap_map, hcomp, ← ih]
    by_cases hc : a = c
    · simp [List.filter_cons, hc]
    · simp [List.filter_cons, hc]

/-- Unfolding of `get_node_coords` with a filter code: membership check,
then the positional filter. -/
lemma get_node_coords_some (f : DfsuFileM) (c : ℤ) :
    Dfsu.get_node_coords f (some c) =
      if c ∈ f.nodeCode then
        Except.ok (((f.nodeCode.zip (Dfsu.nodeTriples f)).filter
          (fun p => p.1 == c)).map (fun p => p.2))
      else Except.error PyError.invalidCode := rfl

/-- **C8.** `get_node_coords` returns all node triples when no code is
given; with a code present among the node codes it returns exactly the
subsequence, in original node order, of triples at positions whose code
equals the filter; with an absent code it fails with the invalid-code
error. -/
theorem C8_node_coords (f : DfsuFileM)
    (hy : f.nodeY.length = f.nodeX.length)
    (hz : f.nodeZ.length = f.nodeX.length)
    (hcode : f.nodeCode.length = f.nodeX.length) :
    (Dfsu.get_node_coords f none = Except.ok ((List.range f.nodeX.length).map
      (fun i => (f.nodeX.getD i 0, f.nodeY.getD i 0, f.nodeZ.getD i 0)))) ∧
    (∀ c : ℤ, c ∉ f.nodeCode →
      Dfsu.get_node_coords f (some c) = Except.error PyError.invalidCode) ∧
    (∀ c : ℤ, c ∈ f.nodeCode →
      Dfsu.get_node_coords f (some c) = Except.ok
        ((List.range f.nodeX.length).filterMap (fun i =>
          if f.nodeCode.getD i 0 = c then
            some (f.nodeX.getD i 0, f.nodeY.getD i 0, f.nodeZ.getD i 0)
          else none))) := by
  have htrip : Dfsu.nodeTriples f = (List.range f.nodeX.length).map
      (fun i => (f.nodeX.getD i 0, f.nodeY.getD i 0, f.nodeZ.getD i 0)) := by
    rw [Dfsu.nodeTriples]
    exact zip3_eq_range_map f.nodeX f.nodeY f.nodeZ hy hz
  have hnc : (Dfsu.nodeTriples f).length = f.nodeX.length := by
    rw [htrip]; simp
  refine ⟨?_, ?_, ?_⟩
  · show Except.ok (Dfsu.nodeTriples f) = _
    rw [htrip]
  · intro c hc
    rw [get_node_coords_some, if_neg hc]
  · intro c hc
    rw [get_node_coords_some, if_pos hc]
    congr 1
    rw [filter_zip_eq_filterMap c f.nodeCode (Dfsu.nodeTriples f)
      (by rw [hnc, hcode]), hcode]
    apply List.filterMap_congr
    intro i hi
    rw [List.mem_range] at hi
    have hgd : (Dfsu.nodeTriples f).getD i (0, 0, 0) =
        (f.nodeX.getD i 0, f.nodeY.getD i 0, f.nodeZ.getD i 0) := by
      rw [htrip]
      exact getD_map_range _ _ _ hi _
    rw [hgd]

/-- **C8 witness.** On the fixture file, filtering by code 1 returns the
three matching node triples in order, and the absent code 7 fails. -/
theorem C8_node_coords_witness :
    Dfsu.get_node_coords exFile (some 1) = Except.ok
      ((List.range exFile.nodeX.length).filterMap (fun i =>
        if exFile.nodeCode.getD i 0 = 1 then
          some (exFile.nodeX.getD i 0, exFile.nodeY.getD i 0, exFile.nodeZ.getD i 0)
        else none)) ∧
    Dfsu.get_node_coords exFile (some 7) = Except.error PyError.invalidCode :=
  ⟨(C8_node_coords exFile rfl rfl rfl).2.2 1 (by decide),
    (C8_node_coords exFile rfl rfl rfl).2.1 7 (by decide)⟩

/-- **C2.** `get_element_area` returns one non-negative value per element,
the absolute value of the signed area: for a triangle ½(abx·acy − aby·acx)
with ab, ac the edge vectors from the first node; for a quadrilateral that
triangle plus ½(acx·ady − acy·adx); and when the mesh is geographic every
edge-vector x-component is first scaled by 6366707·(π/180)·cos(mean node
latitude in radians) and every y-component by 6366707·(π/180). -/
theorem C2_element_area (f : DfsuFileM) :
    ((Dfsu.get_element_area f).length = f.nElements ∧
      ∀ v ∈ Dfsu.get_element_area f, 0 ≤ v) ∧
    (∀ (j a b c : Nat) (xa ya xb yb xcc ycc : ℚ), j < f.nElements →
      f.elementTable.getD j [] = [a, b, c] →
      f.nodeX.getD (a - 1) 0 = xa → f.nodeY.getD (a - 1) 0 = ya →
      f.nodeX.getD (b - 1) 0 = xb → f.nodeY.getD (b - 1) 0 = yb →
      f.nodeX.getD (c - 1) 0 = xcc → f.nodeY.getD (c - 1) 0 = ycc →
      (Dfsu.get_element_area f).getD j 0 =
        if Dfsu.is_geo f then
          |(1 / 2 : ℝ) *
            (((6366707 : ℝ) * (Real.pi / 180) * ((xb : ℝ) - (xa : ℝ)) *
                Real.cos ((((ya + yb + ycc : ℚ) : ℝ) / 3) * (Real.pi / 180))) *
              ((6366707 : ℝ) * (Real.pi / 180) * ((ycc : ℝ) - (ya : ℝ))) -
            ((6366707 : ℝ) * (Real.pi / 180) * ((yb : ℝ) - (ya : ℝ))) *
              ((6366707 : ℝ) * (Real.pi / 180) * ((xcc : ℝ) - (xa : ℝ)) *
                Real.cos ((((ya + yb + ycc : ℚ) : ℝ) / 3) * (Real.pi / 180))))|
        else
          |(1 / 2 : ℝ) * (((xb : ℝ) - (xa : ℝ)) * ((ycc : ℝ) - (ya : ℝ)) -
            ((yb : ℝ) - (ya : ℝ)) * ((xcc : ℝ) - (xa : ℝ)))|) ∧
    (∀ (j a b c e : Nat) (xa ya xb yb xcc ycc xd yd : ℚ), j < f.nElements →
      f.elementTable.getD j [] = [a, b, c, e] →
      f.nodeX.getD (a - 1) 0 = xa → f.nodeY.getD (a - 1) 0 = ya →
      f.nodeX.getD (b - 1) 0 = xb → f.nodeY.getD (b - 1) 0 = yb →
      f.nodeX.getD (c - 1) 0 = xcc → f.nodeY.getD (c - 1) 0 = ycc →
      f.nodeX.getD (e - 1) 0 = xd → f.nodeY.getD (e - 1) 0 = yd →
      (Dfsu.get_element_area f).getD j 0 =
        if Dfsu.is_geo f then
          |(1 / 2 : ℝ) *
            (((6366707 : ℝ) * (Real.pi / 180) * ((xb : ℝ) - (xa : ℝ)) *
                Real.cos ((((ya + yb + ycc + yd : ℚ) : ℝ) / 4) * (Real.pi / 180))) *
              ((6366707 : ℝ) * (Real.pi / 180) * ((ycc : ℝ) - (ya : ℝ))) -
            ((6366707 : ℝ) * (Real.pi / 180) * ((yb : ℝ) - (ya : ℝ))) *
              ((6366707 : ℝ) * (Real.pi / 180) * ((xcc : ℝ) - (xa : ℝ)) *
                Real.cos ((((ya + yb + ycc + yd : ℚ) : ℝ) / 4) * (Real.pi / 180)))) +
           (1 / 2 : ℝ) *
            (((6366707 : ℝ) * (Real.pi / 180) * ((xcc : ℝ) - (xa : ℝ)) *
                Real.cos ((((ya + yb + ycc + yd : ℚ) : ℝ) / 4) * (Real.pi / 180))) *
              ((6366707 : ℝ) * (Real.pi / 180) * ((yd : ℝ) - (ya : ℝ))) -
            ((6366707 : ℝ) * (Real.pi / 180) * ((ycc : ℝ) - (ya : ℝ))) *
              ((6366707 : ℝ) * (Real.pi / 180) * ((xd : ℝ) - (xa : ℝ)) *
                Real.cos ((((ya + yb + ycc + yd : ℚ) : ℝ) / 4) * (Real.pi / 180))))|
        else
          |(1 / 2 : ℝ) * (((xb : ℝ) - (xa : ℝ)) * ((ycc : ℝ) - (ya : ℝ)) -
            ((yb : ℝ) - (ya : ℝ)) * ((xcc : ℝ) - (xa : ℝ))) +
           (1 / 2 : ℝ) * (((xcc : ℝ) - (xa : ℝ)) * ((yd : ℝ) - (ya : ℝ)) -
            ((ycc : ℝ) - (ya : ℝ)) * ((xd : ℝ) - (xa : ℝ)))|) := by
  refine ⟨⟨by simp [Dfsu.get_element_area], ?_⟩, ?_, ?_⟩
  · intro v hv
    rw [Dfsu.get_element_area] at hv
    obtain ⟨j, -, rfl⟩ := List.mem_map.mp hv
    exact abs_nonneg _
  · intro j a b c xa ya xb yb xcc ycc hj htab hxa hya hxb hyb hxc hyc
    have hval : (Dfsu.get_element_area f).getD j 0 = |Dfsu.elemSignedArea f j| := by
      rw [Dfsu.get_element_area]
      exact getD_map_range _ _ _ hj _
    rw [hval]
    cases hg : Dfsu.is_geo f with
    | false =>
      simp only [Bool.false_eq_true, if_false]
      congr 1
      simp only [Dfsu.elemSignedArea, htab]
      simp only [List.getD_cons_zero, List.getD_cons_succ]
      rw [hxa, hya, hxb, hyb, hxc, hyc]
      simp only [hg, Bool.false_eq_true, if_false]
      norm_num
    | true =>
      simp only [if_true]
      congr 1
      simp only [Dfsu.elemSignedArea, htab]
      simp only [List.getD_cons_zero, List.getD_cons_succ]
      rw [hxa, hya, hxb, hyb, hxc, hyc]
      simp only [List.map_cons, List.map_nil, List.sum_cons, List.sum_nil]
      rw [hya, hyb, hyc]
      simp only [hg, if_true]
      have hcos : Real.cos ((((ya + (yb + (ycc + 0)) : ℚ) : ℝ) /
          (([a, b, c] : List Nat).length : ℝ)) * Real.pi / 180) =
          Real.cos ((((ya + yb + ycc : ℚ) : ℝ) / 3) * (Real.pi / 180)) := by
        congr 1
        simp only [List.length_cons, List.length_nil]
        push_cast
        ring
      rw [hcos]
      norm_num
  · intro j a b c e xa ya xb yb xcc ycc xd yd hj htab hxa hya hxb hyb hxc hyc hxd hyd
    have hval : (Dfsu.get_element_area f).getD j 0 = |Dfsu.elemSignedArea f j| := by
      rw [Dfsu.get_element_area]
      exact getD_map_range _ _ _ hj _
    rw [hval]
    cases hg : Dfsu.is_geo f with
    | false =>
      simp only [Bool.false_eq_true, if_false]
      congr 1
      simp only [Dfsu.elemSignedArea, htab]
      simp only [List.getD_cons_zero, List.getD_cons_succ]
      rw [hxa, hya, hxb, hyb, hxc, hyc, hxd, hyd]
      simp only [hg, Bool.false_eq_true, if_false]
      norm_num
    | true =>
      simp only [if_true]
      congr 1
      simp only [Dfsu.elemSignedArea, htab]
      simp only [List.getD_cons_zero, List.getD_cons_succ]
      rw [hxa, hya, hxb, hyb, hxc, hyc, hxd, hyd]
      simp only [List.map_cons, List.map_nil, List.sum_cons, List.sum_nil]
      rw [hya, hyb, hyc, hyd]
      simp only [hg, if_true]
      have hcos : Real.cos ((((ya + (yb + (ycc + (yd + 0))) : ℚ) : ℝ) /
          (([a, b, c, e] : List Nat).length : ℝ)) * Real.pi / 180) =
          Real.cos ((((ya + yb + ycc + yd : ℚ) : ℝ) / 4) * (Real.pi / 180)) := by
        congr 1
        simp only [List.length_cons, List.length_nil]
        push_cast
        ring
      rw [hcos]
      norm_num

/-- **C2 witness.** The planar unit-square quadrilateral has area 1. -/
theorem C2_element_area_witness :
    (Dfsu.get_element_area exQuadFile).getD 0 0 = 1 := by
  have h := (C2_element_area exQuadFile).2.2 0 1 2 3 4 0 0 1 0 1 1 0 1
    (by decide) (by decide) (by decide) (by decide) (by decide) (by decide)
    (by decide) (by decide) (by decide) (by decide)
  rw [h]
  have hgeo : Dfsu.is_geo exQuadFile = false := by decide
  simp only [hgeo, Bool.false_eq_true, if_false]
  norm_num
